import Mathlib

/-!
Shallow embedding of `k8s-aws-node-cleanup` (main.go).

The program is a reconciliation loop: each tick it lists cluster nodes,
and for each node checks a readiness condition (`isReady`) and then the
backing EC2 instance state (`isRunning`); a node that is neither ready
nor backed by a running instance is deleted (or merely logged in
dry-run mode).

In the embedding, the Kubernetes and AWS API calls are inputs: a tick
takes the result of the node-list call, a function giving the
`DescribeInstances` response per instance id, and a function telling
whether a delete call for a name succeeds.  Errors become `Except`.
-/

namespace NodeCleanup

/-- Constant `v1.NodeReady` (Kubernetes condition type constant). -/
def NodeReady : String := "Ready"

/-- Constant `v1.ConditionFalse` (Kubernetes condition status constant). -/
def ConditionFalse : String := "False"

/-- Constant `v1.ConditionTrue` (Kubernetes condition status constant). -/
def ConditionTrue : String := "True"

/-- Constant `v1.ConditionUnknown` (Kubernetes condition status constant). -/
def ConditionUnknown : String := "Unknown"

/-- Constant `ec2.InstanceStateNameRunning` (AWS instance lifecycle state constant). -/
def InstanceStateNameRunning : String := "running"

/-- A `v1.NodeCondition`: the two fields the program reads. -/
structure NodeCondition where
  type : String
  status : String
deriving DecidableEq, Repr

/-- An EC2 instance as read by the program: `InstanceId` and `State.Name`. -/
structure Ec2Instance where
  instanceId : String
  stateName : String
deriving DecidableEq, Repr

/-- An EC2 reservation: the list of its instances. -/
structure Reservation where
  instances : List Ec2Instance
deriving DecidableEq, Repr

/-- A cluster node: the fields the loop reads
(`ObjectMeta.Name`, `Spec.ExternalID`, `Status.Conditions`). -/
structure Node where
  name : String
  externalID : String
  conditions : List NodeCondition
deriving DecidableEq, Repr

/-- Function `isReady` from main.go: scan the conditions in order; at the first
condition of type `NodeReady`, return `true` when its status is
`ConditionFalse` and `false` otherwise; error when no condition of that
type occurs. -/
def isReady : List NodeCondition → Except String Bool
  | [] => .error ("cannot find condition type: " ++ NodeReady)
  | c :: rest =>
    if c.type ≠ NodeReady then isReady rest
    else if c.status = ConditionFalse then .ok true
    else .ok false

/-- The inner double loop of `isRunning`: scan one reservation's
instances for the queried id; at the first match, report whether its
state is `running`.  `none` when no instance of the reservation
matches. -/
def scanInstances (id : String) : List Ec2Instance → Option Bool
  | [] => none
  | inst :: rest =>
    if inst.instanceId ≠ id then scanInstances id rest
    else if inst.stateName = InstanceStateNameRunning then some true
    else some false

/-- The outer loop of `isRunning`: scan the reservations in order,
returning the verdict of the first reservation holding a matching
instance. -/
def scanReservations (id : String) : List Reservation → Option Bool
  | [] => none
  | r :: rest =>
    match scanInstances id r.instances with
    | some b => some b
    | none => scanReservations id rest

/-- Function `isRunning` from main.go, with the `DescribeInstances` response for
the queried id passed in as `resp`: propagate a query error; with zero
reservations return `false`; otherwise scan for the matching instance
and report whether it is `running`; error when reservations were
returned but none holds the queried id. -/
def isRunning (resp : Except String (List Reservation)) (id : String) :
    Except String Bool :=
  match resp with
  | .error e => .error e
  | .ok reservations =>
    if reservations.length = 0 then .ok false
    else
      match scanReservations id reservations with
      | some b => .ok b
      | none => .error ("cannot find running instance: " ++ id)

/-- The per-node, per-tick outcome (the spec's `ReconciliationDecision`,
with the `error` case split by where the error arose). -/
inductive Decision
  | errorReady
  | skipReady
  | errorRunning
  | skipRunning
  | wouldDelete
  | deleted
  | deleteFailed
deriving DecidableEq, Repr

/-- The body of the per-node loop in `main`: evaluate `isReady`, then
`isRunning` on the node's external id, then (unless dry-run) issue the
delete call.  `provider` gives the `DescribeInstances` response per id;
`deleteOk name` tells whether the delete call for `name` succeeds. -/
def evalNode (provider : String → Except String (List Reservation))
    (deleteOk : String → Bool) (dryRun : Bool) (node : Node) : Decision :=
  match isReady node.conditions with
  | .error _ => .errorReady
  | .ok true => .skipReady
  | .ok false =>
    match isRunning (provider node.externalID) node.externalID with
    | .error _ => .errorRunning
    | .ok true => .skipRunning
    | .ok false =>
      if dryRun then .wouldDelete
      else if deleteOk node.name then .deleted
      else .deleteFailed

/-- One tick of the reconciliation loop: on a listing error nothing is
processed; otherwise every node is evaluated in listing order and the
tick yields the per-node decisions. -/
def runTick (provider : String → Except String (List Reservation))
    (deleteOk : String → Bool) (dryRun : Bool)
    (listResult : Except String (List Node)) : List Decision :=
  match listResult with
  | .error _ => []
  | .ok nodes => nodes.map (evalNode provider deleteOk dryRun)

/-- Whether the decision for a node corresponds to the Go code issuing
the mutating `Nodes().Delete` call (it is issued both when it succeeds
and when it fails). -/
def isDeleteCall : Decision → Bool
  | .deleted => true
  | .deleteFailed => true
  | _ => false

/-- The names of the nodes for which a tick issues the mutating delete
call. -/
def deleteCalls (provider : String → Except String (List Reservation))
    (deleteOk : String → Bool) (dryRun : Bool)
    (listResult : Except String (List Node)) : List String :=
  match listResult with
  | .error _ => []
  | .ok nodes =>
    (nodes.filter (fun n => isDeleteCall (evalNode provider deleteOk dryRun n))).map
      (fun n => n.name)

/-- The external ids for which a tick issues a `DescribeInstances`
query (a query is issued exactly when the readiness check returned
`ok false`). -/
def providerQueries
    (listResult : Except String (List Node)) : List String :=
  match listResult with
  | .error _ => []
  | .ok nodes =>
    (nodes.filter (fun n =>
      match isReady n.conditions with
      | .ok false => true
      | _ => false)).map
      (fun n => n.externalID)

/-- The nodes still present after a tick: a node is removed exactly when
its delete call was issued and succeeded. -/
def remainingNodes (provider : String → Except String (List Reservation))
    (deleteOk : String → Bool) (dryRun : Bool)
    (nodes : List Node) : List Node :=
  nodes.filter (fun n => ¬ evalNode provider deleteOk dryRun n = .deleted)

/-- All instances of a response, in scan order (reservations in order,
each reservation's instances in order). -/
def allInstances (reservations : List Reservation) : List Ec2Instance :=
  (reservations.map (fun r => r.instances)).flatten

/-! ### Helper lemmas -/

/-- Lemma: `scanInstances` is the first match in the instance list, mapped to
whether its state is `running`. -/
theorem scanInstances_eq_find (id : String) (l : List Ec2Instance) :
    scanInstances id l =
      (l.find? (fun i => i.instanceId == id)).map
        (fun i => i.stateName == InstanceStateNameRunning) := by
  induction l with
  | nil => rfl
  | cons inst rest ih =>
    by_cases h : inst.instanceId = id
    · by_cases hs : inst.stateName = InstanceStateNameRunning <;>
        simp [scanInstances, List.find?, h, hs]
    · have hb : (inst.instanceId == id) = false := by simp [h]
      simp [scanInstances, List.find?, h, hb, ih]

/-- Lemma: `scanReservations` is the first match over all instances of all
reservations, in scan order. -/
theorem scanReservations_eq_find (id : String) (rs : List Reservation) :
    scanReservations id rs =
      ((allInstances rs).find? (fun i => i.instanceId == id)).map
        (fun i => i.stateName == InstanceStateNameRunning) := by
  induction rs with
  | nil => rfl
  | cons r rest ih =>
    have : allInstances (r :: rest) = r.instances ++ allInstances rest := by
      simp [allInstances]
    rw [scanReservations, scanInstances_eq_find, this, List.find?_append, ih]
    cases r.instances.find? (fun i => i.instanceId == id) <;> simp

/-! ### Claims -/

/-- C2: claimed — for every condition sequence containing the
`NodeReady` condition, `isReady` returns no error, with boolean `false`
when that condition's status is `False` and `true` otherwise.  The code
does the opposite: at a `NodeReady` condition with status `False` it
returns `true`, and at status `True` it returns `false`, contradicting
its own doc comment ("check if a Kubernetes node is Ready") and the
log line that calls the `true` case "Node is ready". -/
theorem c2_isReady_inverted :
    isReady [⟨NodeReady, ConditionFalse⟩] = Except.ok true ∧
    isReady [⟨NodeReady, ConditionTrue⟩] = Except.ok false :=
  ⟨rfl, rfl⟩

/-- C1: claimed — a node whose `NodeReady` condition has status `False`
and whose instance lookup returns zero reservations is deleted in one
tick.  Because `isReady` is inverted (see C2), the code instead reports
the node as ready and skips it: the tick's decision for node `n1` is
`skipReady`, not `deleted`. -/
theorem c1_tick_skips_unready_node :
    runTick (fun _ => Except.ok []) (fun _ => true) false
      (Except.ok [⟨"n1", "i-1", [⟨NodeReady, ConditionFalse⟩]⟩]) =
      [Decision.skipReady] :=
  rfl

/-- C4: for every provider response with zero reservations, `isRunning`
returns `(false, nil)`. -/
theorem c4_isRunning_no_reservations (id : String) :
    isRunning (Except.ok []) id = Except.ok false :=
  rfl

/-- C6: `isReady` returns an error exactly when no condition of type
`NodeReady` occurs anywhere in the input sequence. -/
theorem c6_isReady_error_iff_absent (conds : List NodeCondition) :
    (∃ e, isReady conds = Except.error e) ↔ ∀ c ∈ conds, c.type ≠ NodeReady := by
  induction conds with
  | nil => simp [isReady]
  | cons c rest ih =>
    by_cases h : c.type = NodeReady
    · by_cases hs : c.status = ConditionFalse <;>
        simp [isReady, h, hs]
    · simp [isReady, h, ih]

/-- C6 witness: on a sequence with no `NodeReady` condition, `isReady`
errors. -/
theorem c6_witness :
    ∃ e, isReady [⟨"DiskPressure", ConditionTrue⟩] = Except.error e :=
  (c6_isReady_error_iff_absent [⟨"DiskPressure", ConditionTrue⟩]).mpr (by decide)

/-- C10: the result of `isReady` is decided by the first `NodeReady`
condition: with the conditions before it fixed, whatever follows that
first `NodeReady` condition does not change the result. -/
theorem c10_first_ready_condition_decides
    (pre post post' : List NodeCondition) (c : NodeCondition)
    (hpre : ∀ d ∈ pre, d.type ≠ NodeReady) (hc : c.type = NodeReady) :
    isReady (pre ++ c :: post) = isReady (pre ++ c :: post') := by
  induction pre with
  | nil => simp [isReady, hc]
  | cons d ds ih =>
    have hd : d.type ≠ NodeReady := hpre d (List.mem_cons_self d ds)
    have hds : ∀ x ∈ ds, x.type ≠ NodeReady := fun x hx =>
      hpre x (List.mem_cons_of_mem d hx)
    simpa [isReady, hd] using ih hds

/-- C10 witness: inserting a second `NodeReady` condition after the
first does not change the result. -/
theorem c10_witness :
    isReady ([] ++ (⟨NodeReady, ConditionTrue⟩ : NodeCondition) :: []) =
    isReady ([] ++ (⟨NodeReady, ConditionTrue⟩ : NodeCondition) ::
      [⟨NodeReady, ConditionFalse⟩]) :=
  c10_first_ready_condition_decides [] [] [⟨NodeReady, ConditionFalse⟩]
    ⟨NodeReady, ConditionTrue⟩ (by simp) rfl

/-- C3: for a provider response in which some reservation contains an
instance with the queried id, `isRunning` returns no error, and the
boolean is `true` exactly when the located (first matching) instance's
state is `running`. -/
theorem c3_isRunning_found (rs : List Reservation) (id : String) (inst : Ec2Instance)
    (h : (allInstances rs).find? (fun i => i.instanceId == id) = some inst) :
    isRunning (Except.ok rs) id =
      Except.ok (inst.stateName == InstanceStateNameRunning) := by
  have hne : ¬ rs.length = 0 := by
    intro h0
    rw [List.length_eq_zero] at h0
    subst h0
    simp [allInstances] at h
  simp [isRunning, hne, scanReservations_eq_find, h]

/-- C3 witness: a one-reservation response holding the queried instance
in state `running` yields `ok true`. -/
theorem c3_witness :
    isRunning (Except.ok [⟨[⟨"i-9", InstanceStateNameRunning⟩]⟩]) "i-9" =
      Except.ok ((⟨"i-9", InstanceStateNameRunning⟩ : Ec2Instance).stateName ==
        InstanceStateNameRunning) :=
  c3_isRunning_found [⟨[⟨"i-9", InstanceStateNameRunning⟩]⟩] "i-9"
    ⟨"i-9", InstanceStateNameRunning⟩ rfl

/-- Lemma: `isRunning` errors exactly when the query itself errored, or when
reservations were returned but no instance in any of them carries the
queried id. -/
theorem isRunning_error_iff (resp : Except String (List Reservation)) (id : String) :
    (∃ e, isRunning resp id = Except.error e) ↔
      (∃ e, resp = Except.error e) ∨
      (∃ rs, resp = Except.ok rs ∧ rs ≠ [] ∧
        ∀ inst ∈ allInstances rs, inst.instanceId ≠ id) := by
  cases resp with
  | error e => simp [isRunning]
  | ok rs =>
    by_cases h0 : rs.length = 0
    · rw [List.length_eq_zero] at h0
      subst h0
      simp [isRunning, allInstances]
    · have hne : rs ≠ [] := by
        intro hnil
        exact h0 (by simp [hnil])
      cases hf : (allInstances rs).find? (fun i => i.instanceId == id) with
      | some inst =>
        have hmem := List.mem_of_find?_eq_some hf
        have hp : (inst.instanceId == id) = true := by
          simpa using List.find?_some hf
        simp only [isRunning, if_neg h0, scanReservations_eq_find, hf, Option.map_some]
        constructor
        · rintro ⟨e, he⟩
          exact absurd he (by simp)
        · rintro (⟨e, he⟩ | ⟨rs', hrs', -, hnone⟩)
          · exact absurd he (by simp)
          · have : rs' = rs := by
              injection hrs' with h
              exact h.symm
            subst this
            exact absurd (by simpa using hp) (hnone inst hmem)
      | none =>
        simp only [isRunning, if_neg h0, scanReservations_eq_find, hf, Option.map_none]
        constructor
        · intro _
          refine Or.inr ⟨rs, rfl, hne, fun inst hmem => ?_⟩
          have := (List.find?_eq_none.mp hf) inst hmem
          simpa using this
        · intro _
          exact ⟨"cannot find running instance: " ++ id, rfl⟩

/-- C5: `isRunning` propagates a query error unchanged; it errors
exactly when the query errored or when reservations came back without
the queried id; and whenever it errors for a node's lookup, that node's
decision is a skip (`errorReady`, `skipReady` or `errorRunning`) — in
particular no delete call follows. -/
theorem c5_isRunning_error_skips
    (provider : String → Except String (List Reservation))
    (deleteOk : String → Bool) (dryRun : Bool) (node : Node) :
    (∀ e, provider node.externalID = Except.error e →
      isRunning (provider node.externalID) node.externalID = Except.error e) ∧
    ((∃ e, isRunning (provider node.externalID) node.externalID = Except.error e) ↔
      (∃ e, provider node.externalID = Except.error e) ∨
      (∃ rs, provider node.externalID = Except.ok rs ∧ rs ≠ [] ∧
        ∀ inst ∈ allInstances rs, inst.instanceId ≠ node.externalID)) ∧
    (∀ e, isRunning (provider node.externalID) node.externalID = Except.error e →
      (evalNode provider deleteOk dryRun node = Decision.errorReady ∨
       evalNode provider deleteOk dryRun node = Decision.skipReady ∨
       evalNode provider deleteOk dryRun node = Decision.errorRunning)) := by
  refine ⟨fun e he => by simp [isRunning, he],
    isRunning_error_iff (provider node.externalID) node.externalID,
    fun e he => ?_⟩
  rcases hR : isReady node.conditions with eR | b
  · exact Or.inl (by simp [evalNode, hR])
  · cases b
    · exact Or.inr (Or.inr (by simp [evalNode, hR, he]))
    · exact Or.inr (Or.inl (by simp [evalNode, hR]))

/-- C5 witness: a throttled provider query makes `isRunning` return the
same error, and the node's decision is a skip. -/
theorem c5_witness :
    isRunning ((fun _ => Except.error "throttled") "i-5") "i-5" =
      Except.error "throttled" ∧
    (evalNode (fun _ => Except.error "throttled") (fun _ => true) false
        (⟨"n5", "i-5", [⟨NodeReady, ConditionTrue⟩]⟩ : Node) = Decision.errorReady ∨
     evalNode (fun _ => Except.error "throttled") (fun _ => true) false
        (⟨"n5", "i-5", [⟨NodeReady, ConditionTrue⟩]⟩ : Node) = Decision.skipReady ∨
     evalNode (fun _ => Except.error "throttled") (fun _ => true) false
        (⟨"n5", "i-5", [⟨NodeReady, ConditionTrue⟩]⟩ : Node) = Decision.errorRunning) := by
  have h := c5_isRunning_error_skips (fun _ => Except.error "throttled")
    (fun _ => true) false (⟨"n5", "i-5", [⟨NodeReady, ConditionTrue⟩]⟩ : Node)
  exact ⟨h.1 "throttled" rfl, h.2.2 "throttled" rfl⟩

/-- C7: when the node-list call errors, the whole tick is skipped: no
node is evaluated, no provider query is issued, and no delete call is
issued. -/
theorem c7_list_failure_skips_tick
    (provider : String → Except String (List Reservation))
    (deleteOk : String → Bool) (dryRun : Bool) (e : String) :
    runTick provider deleteOk dryRun (Except.error e) = [] ∧
    providerQueries (Except.error e) = [] ∧
    deleteCalls provider deleteOk dryRun (Except.error e) = [] :=
  ⟨rfl, rfl, rfl⟩

/-- In dry-run mode the loop never reaches the delete call. -/
theorem isDeleteCall_dryRun_false
    (provider : String → Except String (List Reservation))
    (deleteOk : String → Bool) (node : Node) :
    isDeleteCall (evalNode provider deleteOk true node) = false := by
  rcases hR : isReady node.conditions with eR | b
  · simp [evalNode, hR, isDeleteCall]
  · cases b
    · rcases hr : isRunning (provider node.externalID) node.externalID with er | r
      · simp [evalNode, hR, hr, isDeleteCall]
      · cases r <;> simp [evalNode, hR, hr, isDeleteCall]
    · simp [evalNode, hR, isDeleteCall]

/-- C8: with the dry-run flag set, a tick issues no mutating delete
call, leaves the node set unchanged, and a node that reaches the
deletion step gets decision `wouldDelete`. -/
theorem c8_dry_run_never_deletes
    (provider : String → Except String (List Reservation))
    (deleteOk : String → Bool) (listResult : Except String (List Node)) :
    deleteCalls provider deleteOk true listResult = [] ∧
    (∀ nodes, listResult = Except.ok nodes →
      remainingNodes provider deleteOk true nodes = nodes) ∧
    (∀ node : Node, isReady node.conditions = Except.ok false →
      isRunning (provider node.externalID) node.externalID = Except.ok false →
      evalNode provider deleteOk true node = Decision.wouldDelete) := by
  refine ⟨?_, fun nodes _ => ?_, fun node h1 h2 => by simp [evalNode, h1, h2]⟩
  · cases listResult with
    | error e => rfl
    | ok nodes =>
      simp only [deleteCalls]
      rw [List.filter_eq_nil_iff.mpr, List.map_nil]
      intro n _
      simp [isDeleteCall_dryRun_false]
  · apply List.filter_eq_self.mpr
    intro n _
    have hd := isDeleteCall_dryRun_false provider deleteOk n
    have : evalNode provider deleteOk true n ≠ Decision.deleted := by
      intro hc
      rw [hc] at hd
      exact Bool.noConfusion hd
    simpa using this

/-- C8 witness: in dry-run a stale node's decision is `wouldDelete` and
the tick issues no delete call. -/
theorem c8_witness :
    deleteCalls (fun _ => Except.ok []) (fun _ => true) true
      (Except.ok [⟨"n8", "i-8", [⟨NodeReady, ConditionTrue⟩]⟩]) = [] ∧
    evalNode (fun _ => Except.ok []) (fun _ => true) true
      (⟨"n8", "i-8", [⟨NodeReady, ConditionTrue⟩]⟩ : Node) = Decision.wouldDelete := by
  have h := c8_dry_run_never_deletes (fun _ => Except.ok []) (fun _ => true)
    (Except.ok [⟨"n8", "i-8", [⟨NodeReady, ConditionTrue⟩]⟩])
  exact ⟨h.1, h.2.2 (⟨"n8", "i-8", [⟨NodeReady, ConditionTrue⟩]⟩ : Node) rfl rfl⟩

/-- C9: within one tick no per-node failure aborts the pass: the tick
produces one decision per listed node, the decision at every position
is that node's own evaluation, and a node whose evaluation failed
(readiness error, provider error, or failed delete call) is still
present afterwards. -/
theorem c9_per_node_isolation
    (provider : String → Except String (List Reservation))
    (deleteOk : String → Bool) (dryRun : Bool) (nodes : List Node) :
    (runTick provider deleteOk dryRun (Except.ok nodes)).length = nodes.length ∧
    (∀ i : Nat, (runTick provider deleteOk dryRun (Except.ok nodes))[i]? =
      nodes[i]?.map (evalNode provider deleteOk dryRun)) ∧
    (∀ node ∈ nodes,
      (evalNode provider deleteOk dryRun node = Decision.errorReady ∨
       evalNode provider deleteOk dryRun node = Decision.errorRunning ∨
       evalNode provider deleteOk dryRun node = Decision.deleteFailed) →
      node ∈ remainingNodes provider deleteOk dryRun nodes) := by
  refine ⟨by simp [runTick], fun i => by simp [runTick], fun node hmem hdec => ?_⟩
  rw [remainingNodes, List.mem_filter]
  refine ⟨hmem, ?_⟩
  have : evalNode provider deleteOk dryRun node ≠ Decision.deleted := by
    rcases hdec with h | h | h <;> rw [h] <;> intro hc <;> exact Decision.noConfusion hc
  simpa using this

/-- C9 witness: a node whose readiness evaluation errors (no conditions
at all) survives the tick. -/
theorem c9_witness :
    (⟨"n9", "i-9", []⟩ : Node) ∈
      remainingNodes (fun _ => Except.ok []) (fun _ => true) false
        [⟨"n9", "i-9", []⟩] :=
  (c9_per_node_isolation (fun _ => Except.ok []) (fun _ => true) false
      [(⟨"n9", "i-9", []⟩ : Node)]).2.2 ⟨"n9", "i-9", []⟩
    (List.mem_singleton.mpr rfl) (Or.inl rfl)

end NodeCleanup
